import Mathlib

/-!
Shallow embedding of the cesium-sensor-volumes core (custom sensor volume
mesher, conic/rectangular boundary samplers, the sensor-shadow shader
predicate, and the visualizer synchronization lifecycle), together with
theorems settling the specification claims about it.

The JavaScript floating-point arithmetic is modelled over the real numbers;
`Number.POSITIVE_INFINITY` radii are modelled by `Option ℝ` with `none`
standing for the infinite sentinel, exactly where the source tests
`isFinite`.
-/

namespace CesiumSensors

/-- Model of Cesium's `Spherical`: a clock angle, a cone angle and a
magnitude, as assigned by `assignSpherical` and consumed by
`Cartesian3.fromSpherical`. -/
structure Spherical where
  clock : ℝ
  cone : ℝ
  magnitude : ℝ

instance : Inhabited Spherical := ⟨⟨0, 0, 0⟩⟩

/-- Model of `Cartesian3`: a triple of real coordinates. -/
structure Vec3 where
  x : ℝ
  y : ℝ
  z : ℝ

/-- The zero vector, `Cartesian3.ZERO`. -/
def Vec3.zero : Vec3 := ⟨0, 0, 0⟩

instance : Inhabited Vec3 := ⟨Vec3.zero⟩

/-- Componentwise product, as in the shader's `D * pointWC` where `D` holds
the ellipsoid's inverse radii. -/
def scaleVec (d v : Vec3) : Vec3 := ⟨d.x * v.x, d.y * v.y, d.z * v.z⟩

/-- Vector subtraction. -/
def sub3 (u v : Vec3) : Vec3 := ⟨u.x - v.x, u.y - v.y, u.z - v.z⟩

/-- Scalar multiple, `Cartesian3.multiplyByScalar`. -/
def smul3 (c : ℝ) (v : Vec3) : Vec3 := ⟨c * v.x, c * v.y, c * v.z⟩

/-- Dot product, `Cartesian3.dot`. -/
def dot3 (u v : Vec3) : ℝ := u.x * v.x + u.y * v.y + u.z * v.z

/-- Cross product, `Cartesian3.cross`. -/
def cross3 (u v : Vec3) : Vec3 :=
  ⟨u.y * v.z - u.z * v.y, u.z * v.x - u.x * v.z, u.x * v.y - u.y * v.x⟩

/-- Euclidean magnitude, `Cartesian3.magnitude`. -/
noncomputable def norm3 (v : Vec3) : ℝ := Real.sqrt (v.x ^ 2 + v.y ^ 2 + v.z ^ 2)

/-- Normalization, `Cartesian3.normalize` (division by the magnitude). -/
noncomputable def normalize3 (v : Vec3) : Vec3 := smul3 (1 / norm3 v) v

/-- Model of `Math.atan2` on the reals (the signed-zero subtleties of IEEE
`atan2` never matter here because it is only applied to a nonnegative first
argument). -/
noncomputable def atan2 (y x : ℝ) : ℝ :=
  if 0 < x then Real.arctan (y / x)
  else if x < 0 then
    (if 0 ≤ y then Real.arctan (y / x) + Real.pi else Real.arctan (y / x) - Real.pi)
  else
    (if 0 < y then Real.pi / 2 else if y < 0 then -(Real.pi / 2) else 0)

/-- Model of `Cartesian3.angleBetween`: both arguments are normalized, then
the angle is `atan2(|u × v|, u ⋅ v)`. -/
noncomputable def angleBetween (u v : Vec3) : ℝ :=
  atan2 (norm3 (cross3 (normalize3 u) (normalize3 v)))
    (dot3 (normalize3 u) (normalize3 v))

/-- Model of `Cartesian3.fromSpherical`. -/
noncomputable def fromSpherical (s : Spherical) : Vec3 :=
  ⟨s.magnitude * Real.sin s.cone * Real.cos s.clock,
   s.magnitude * Real.sin s.cone * Real.sin s.clock,
   s.magnitude * Real.cos s.cone⟩

/-- Model of the `inSensorShadow` predicate of the `SensorVolume` shader:
with `D` the ellipsoid inverse radii, `q = D * apex`,
`test = |q|² - 1`, `temp = D * point - q` and `d = dot(temp, q)`, the point
is in shadow iff `d < -test` and `d / |temp| < -sqrt test`. -/
noncomputable def inSensorShadow (d apex point : Vec3) : Prop :=
  let q := scaleVec d apex
  let test := dot3 q q - 1
  let temp := sub3 (scaleVec d point) q
  let dd := dot3 temp q
  dd < -test ∧ dd / norm3 temp < -Real.sqrt test

/-- The outside-ness quantity `test = |D * apex|² - 1` of the shader. -/
def shadowTest (d apex : Vec3) : ℝ := dot3 (scaleVec d apex) (scaleVec d apex) - 1

/-- C8: the occlusion predicate of the `SensorVolume` shader, evaluated with
the surface point equal to the sensor apex, returns false whenever the apex
is strictly outside the unit sphere of the scaled space (`test > 0`): a
point cannot occlude itself. -/
theorem inSensorShadow_self_false (d apex : Vec3) (htest : 0 < shadowTest d apex) :
    ¬ inSensorShadow d apex apex := by
  intro h
  obtain ⟨h1, -⟩ := h
  have hz : dot3 (sub3 (scaleVec d apex) (scaleVec d apex)) (scaleVec d apex) = 0 := by
    simp [dot3, sub3, scaleVec]
  rw [hz] at h1
  rw [shadowTest] at htest
  linarith

/-- Witness for C8 at a concrete apex strictly outside the unit sphere. -/
theorem inSensorShadow_self_false_witness :
    0 < shadowTest ⟨1, 1, 1⟩ ⟨2, 0, 0⟩ ∧ ¬ inSensorShadow ⟨1, 1, 1⟩ ⟨2, 0, 0⟩ ⟨2, 0, 0⟩ := by
  have htest : 0 < shadowTest ⟨1, 1, 1⟩ ⟨2, 0, 0⟩ := by
    rw [shadowTest]; simp [dot3, scaleVec]; norm_num
  exact ⟨htest, inSensorShadow_self_false ⟨1, 1, 1⟩ ⟨2, 0, 0⟩ htest⟩

/-- Model of `CesiumMath.toRadians`. -/
noncomputable def toRadians (degrees : ℝ) : ℝ := degrees * Real.pi / 180

/-- Model of the rectangular sensor's `updateDirections`: both half-angles
are capped at 89 degrees before taking tangents, then the four corner
directions are derived from the two tangents. -/
noncomputable def updateDirections (xHalfAngle yHalfAngle : ℝ) : List Spherical :=
  let tanX := Real.tan (min xHalfAngle (toRadians 89))
  let tanY := Real.tan (min yHalfAngle (toRadians 89))
  let theta := Real.arctan (tanX / tanY)
  let cone := Real.arctan (Real.sqrt (tanX * tanX + tanY * tanY))
  [⟨theta, cone, 1⟩,
   ⟨toRadians 180 - theta, cone, 1⟩,
   ⟨toRadians 180 + theta, cone, 1⟩,
   ⟨-theta, cone, 1⟩]

/-- The shared cone angle of the rectangular boundary. -/
noncomputable def rectCone (xHalfAngle yHalfAngle : ℝ) : ℝ :=
  Real.arctan (Real.sqrt
    (Real.tan (min xHalfAngle (toRadians 89)) * Real.tan (min xHalfAngle (toRadians 89)) +
     Real.tan (min yHalfAngle (toRadians 89)) * Real.tan (min yHalfAngle (toRadians 89))))

/-- The first clock angle of the rectangular boundary. -/
noncomputable def rectTheta (xHalfAngle yHalfAngle : ℝ) : ℝ :=
  Real.arctan
    (Real.tan (min xHalfAngle (toRadians 89)) / Real.tan (min yHalfAngle (toRadians 89)))

/-- C7: the rectangular sensor boundary always consists of exactly 4
direction samples; each half-angle is capped at 89 degrees before its
tangent is taken; all four samples share the cone angle
`atan (sqrt (tanX² + tanY²))` and unit magnitude, and their clock angles are
`theta`, `180° - theta`, `180° + theta` and `-theta` with
`theta = atan (tanX / tanY)`; in particular equal half-angles of 45 degrees
give a cone angle whose cosine is `1 / sqrt 3`. -/
theorem updateDirections_spec (xHalfAngle yHalfAngle : ℝ) :
    (updateDirections xHalfAngle yHalfAngle).length = 4 ∧
    updateDirections xHalfAngle yHalfAngle =
      [⟨rectTheta xHalfAngle yHalfAngle, rectCone xHalfAngle yHalfAngle, 1⟩,
       ⟨toRadians 180 - rectTheta xHalfAngle yHalfAngle, rectCone xHalfAngle yHalfAngle, 1⟩,
       ⟨toRadians 180 + rectTheta xHalfAngle yHalfAngle, rectCone xHalfAngle yHalfAngle, 1⟩,
       ⟨-rectTheta xHalfAngle yHalfAngle, rectCone xHalfAngle yHalfAngle, 1⟩] ∧
    (∀ d ∈ updateDirections xHalfAngle yHalfAngle,
      d.cone = rectCone xHalfAngle yHalfAngle ∧ d.magnitude = 1) ∧
    Real.cos (rectCone (Real.pi / 4) (Real.pi / 4)) = 1 / Real.sqrt 3 := by
  refine ⟨rfl, rfl, ?_, ?_⟩
  · intro d hd
    simp only [updateDirections, List.mem_cons, List.not_mem_nil, or_false] at hd
    rcases hd with rfl | rfl | rfl | rfl <;> exact ⟨rfl, rfl⟩
  · have hmin : min (Real.pi / 4) (toRadians 89) = Real.pi / 4 := by
      apply min_eq_left
      rw [toRadians]
      nlinarith [Real.pi_pos]
    rw [rectCone, hmin, Real.tan_pi_div_four]
    have h2 : (1 : ℝ) * 1 + 1 * 1 = 2 := by norm_num
    rw [h2, Real.cos_arctan, Real.sq_sqrt (by norm_num : (0:ℝ) ≤ 2)]
    norm_num

/-- Strict decrease of the loop measure used by the angle-stepping loops. -/
theorem ceil_pred_lt {q : ℝ} (hq : 0 < q) : Nat.ceil (q - 1) < Nat.ceil q := by
  rcases le_or_lt q 1 with hle | hlt
  · have h0 : Nat.ceil (q - 1) = 0 := Nat.ceil_eq_zero.mpr (by linarith)
    rw [h0]
    exact Nat.ceil_pos.mpr hq
  · rw [Nat.lt_ceil]
    calc (Nat.ceil (q - 1) : ℝ) < (q - 1) + 1 := Nat.ceil_lt_add_one (by linarith)
    _ = q := by ring

/-- Successor form of the loop measure. -/
theorem ceil_eq_pred_succ {q : ℝ} (hq : 0 < q) : Nat.ceil q = Nat.ceil (q - 1) + 1 := by
  rcases le_or_lt q 1 with hle | hlt
  · have h0 : Nat.ceil (q - 1) = 0 := Nat.ceil_eq_zero.mpr (by linarith)
    rw [h0]
    refine le_antisymm (Nat.ceil_le.mpr ?_) ?_
    · push_cast
      linarith
    · have := Nat.ceil_pos.mpr hq
      omega
  · have h0 : (0 : ℝ) ≤ q - 1 := by linarith
    have h := Nat.ceil_add_one h0
    rw [sub_add_cancel] at h
    rw [h]

/-- The ascending sampling loop `for (angle = start; angle < stop; angle += step)`
of `computeDirections`, returning the sequence of visited angles. -/
noncomputable def upSamples (stop step angle : ℝ) : List ℝ :=
  if h : 0 < step ∧ angle < stop then
    angle :: upSamples stop step (angle + step)
  else []
termination_by Nat.ceil ((stop - angle) / step)
decreasing_by
  have hstep := h.1
  have hlt := h.2
  have hkey : (stop - (angle + step)) / step = (stop - angle) / step - 1 := by
    field_simp
    ring
  rw [hkey]
  exact ceil_pred_lt (div_pos (by linarith) hstep)

/-- The descending sampling loop `for (angle = start; angle > stop; angle -= step)`
of `computeDirections`. -/
noncomputable def downSamples (stop step angle : ℝ) : List ℝ :=
  if h : 0 < step ∧ stop < angle then
    angle :: downSamples stop step (angle - step)
  else []
termination_by Nat.ceil ((angle - stop) / step)
decreasing_by
  have hstep := h.1
  have hlt := h.2
  have hkey : ((angle - step) - stop) / step = (angle - stop) / step - 1 := by
    field_simp
    ring
  rw [hkey]
  exact ceil_pred_lt (div_pos (by linarith) hstep)

/-- The ascending loop visits the arithmetic progression
`start, start + step, …` of length `⌈(stop - start) / step⌉`. -/
theorem upSamples_eq_aux (stop step : ℝ) (hs : 0 < step) :
    ∀ (fuel : ℕ) (angle : ℝ), Nat.ceil ((stop - angle) / step) ≤ fuel →
      upSamples stop step angle =
        (List.range (Nat.ceil ((stop - angle) / step))).map
          (fun k : ℕ => angle + (k : ℝ) * step) := by
  intro fuel
  induction fuel with
  | zero =>
    intro angle hf
    have h0 : Nat.ceil ((stop - angle) / step) = 0 := Nat.le_zero.mp hf
    rw [upSamples, h0]
    rw [dif_neg]
    · rfl
    · rintro ⟨-, hlt⟩
      have : 0 < Nat.ceil ((stop - angle) / step) :=
        Nat.ceil_pos.mpr (div_pos (by linarith) hs)
      omega
  | succ f ih =>
    intro angle hf
    rw [upSamples]
    by_cases hlt : angle < stop
    · rw [dif_pos ⟨hs, hlt⟩]
      have hq : 0 < (stop - angle) / step := div_pos (by linarith) hs
      have hkey : (stop - (angle + step)) / step = (stop - angle) / step - 1 := by
        field_simp
        ring
      have hsucc : Nat.ceil ((stop - angle) / step) =
          Nat.ceil ((stop - (angle + step)) / step) + 1 := by
        rw [hkey]
        exact ceil_eq_pred_succ hq
      have hfuel : Nat.ceil ((stop - (angle + step)) / step) ≤ f := by omega
      rw [ih (angle + step) hfuel, hsucc, List.range_succ_eq_map]
      rw [List.map_cons, List.map_map]
      congr 1
      · push_cast
        ring
      · apply List.map_congr_left
        intro k hk
        simp only [Function.comp]
        push_cast
        ring
    · rw [dif_neg (by rintro ⟨-, h2⟩; exact hlt h2)]
      have h0 : Nat.ceil ((stop - angle) / step) = 0 :=
        Nat.ceil_eq_zero.mpr (div_nonpos_of_nonpos_of_nonneg (by linarith) (le_of_lt hs))
      rw [h0]
      rfl

/-- The descending loop visits the arithmetic progression
`start, start - step, …` of length `⌈(start - stop) / step⌉`. -/
theorem downSamples_eq_aux (stop step : ℝ) (hs : 0 < step) :
    ∀ (fuel : ℕ) (angle : ℝ), Nat.ceil ((angle - stop) / step) ≤ fuel →
      downSamples stop step angle =
        (List.range (Nat.ceil ((angle - stop) / step))).map
          (fun k : ℕ => angle - (k : ℝ) * step) := by
  intro fuel
  induction fuel with
  | zero =>
    intro angle hf
    have h0 : Nat.ceil ((angle - stop) / step) = 0 := Nat.le_zero.mp hf
    rw [downSamples, h0]
    rw [dif_neg]
    · rfl
    · rintro ⟨-, hlt⟩
      have : 0 < Nat.ceil ((angle - stop) / step) :=
        Nat.ceil_pos.mpr (div_pos (by linarith) hs)
      omega
  | succ f ih =>
    intro angle hf
    rw [downSamples]
    by_cases hlt : stop < angle
    · rw [dif_pos ⟨hs, hlt⟩]
      have hq : 0 < (angle - stop) / step := div_pos (by linarith) hs
      have hkey : ((angle - step) - stop) / step = (angle - stop) / step - 1 := by
        field_simp
        ring
      have hsucc : Nat.ceil ((angle - stop) / step) =
          Nat.ceil (((angle - step) - stop) / step) + 1 := by
        rw [hkey]
        exact ceil_eq_pred_succ hq
      have hfuel : Nat.ceil (((angle - step) - stop) / step) ≤ f := by omega
      rw [ih (angle - step) hfuel, hsucc, List.range_succ_eq_map]
      rw [List.map_cons, List.map_map]
      congr 1
      · push_cast
        ring
      · apply List.map_congr_left
        intro k hk
        simp only [Function.comp]
        push_cast
        ring
    · rw [dif_neg (by rintro ⟨-, h2⟩; exact hlt h2)]
      have h0 : Nat.ceil ((angle - stop) / step) = 0 :=
        Nat.ceil_eq_zero.mpr (div_nonpos_of_nonpos_of_nonneg (by linarith) (le_of_lt hs))
      rw [h0]
      rfl

/-- Closed form of the ascending loop. -/
theorem upSamples_eq (stop step angle : ℝ) (hs : 0 < step) :
    upSamples stop step angle =
      (List.range (Nat.ceil ((stop - angle) / step))).map
        (fun k : ℕ => angle + (k : ℝ) * step) :=
  upSamples_eq_aux stop step hs _ angle le_rfl

/-- Closed form of the descending loop. -/
theorem downSamples_eq (stop step angle : ℝ) (hs : 0 < step) :
    downSamples stop step angle =
      (List.range (Nat.ceil ((angle - stop) / step))).map
        (fun k : ℕ => angle - (k : ℝ) * step) :=
  downSamples_eq_aux stop step hs _ angle le_rfl

/-- The 2-degree step of `computeDirections` is positive. -/
theorem toRadians_two_pos : 0 < toRadians 2 := by
  rw [toRadians]
  positivity

/-- Model of the conic visualizer's `computeDirections`: a full circle is
sampled in fixed 2-degree steps at the outer half-angle when there are no
clock-angle limits; otherwise the wedge is traversed from the minimum to the
maximum clock angle at the outer half-angle, then closed either along the
inner half-angle (when nonzero, the JavaScript truthiness test) or by a
single apex sample. -/
noncomputable def computeDirections
    (minimumClockAngle maximumClockAngle innerHalfAngle outerHalfAngle : ℝ) :
    List Spherical :=
  if minimumClockAngle = 0 ∧ maximumClockAngle = 2 * Real.pi then
    (upSamples (2 * Real.pi) (toRadians 2) 0).map
      (fun a => ⟨a, outerHalfAngle, 1⟩)
  else
    ((upSamples maximumClockAngle (toRadians 2) minimumClockAngle).map
        (fun a => ⟨a, outerHalfAngle, 1⟩) ++
      [⟨maximumClockAngle, outerHalfAngle, 1⟩]) ++
    (if innerHalfAngle ≠ 0 then
      (downSamples minimumClockAngle (toRadians 2) maximumClockAngle).map
          (fun a => ⟨a, innerHalfAngle, 1⟩) ++
        [⟨minimumClockAngle, innerHalfAngle, 1⟩]
    else [⟨maximumClockAngle, 0, 1⟩])

/-- C5: full-circle boundary sampling (`minClock = 0`, `maxClock = 2π`)
produces `⌈2π / step⌉ = 180` samples for the 2-degree step, every sample at
cone angle `outerHalfAngle` and magnitude 1, and the result does not depend
on the inner half-angle (no hole is carved). -/
theorem computeDirections_fullCircle
    (innerHalfAngle innerHalfAngle' outerHalfAngle : ℝ) :
    (computeDirections 0 (2 * Real.pi) innerHalfAngle outerHalfAngle).length
        = Nat.ceil (2 * Real.pi / toRadians 2) ∧
    (computeDirections 0 (2 * Real.pi) innerHalfAngle outerHalfAngle).length = 180 ∧
    (∀ d ∈ computeDirections 0 (2 * Real.pi) innerHalfAngle outerHalfAngle,
      d.cone = outerHalfAngle ∧ d.magnitude = 1) ∧
    computeDirections 0 (2 * Real.pi) innerHalfAngle outerHalfAngle
      = computeDirections 0 (2 * Real.pi) innerHalfAngle' outerHalfAngle := by
  have hcond : (0 : ℝ) = 0 ∧ 2 * Real.pi = 2 * Real.pi := ⟨rfl, rfl⟩
  have hunfold : ∀ inner : ℝ,
      computeDirections 0 (2 * Real.pi) inner outerHalfAngle =
        (upSamples (2 * Real.pi) (toRadians 2) 0).map
          (fun a => ⟨a, outerHalfAngle, 1⟩) := by
    intro inner
    rw [computeDirections, if_pos hcond]
  have hlen : (computeDirections 0 (2 * Real.pi) innerHalfAngle outerHalfAngle).length
      = Nat.ceil (2 * Real.pi / toRadians 2) := by
    rw [hunfold, List.length_map, upSamples_eq _ _ _ toRadians_two_pos,
      List.length_map, List.length_range, sub_zero]
  refine ⟨hlen, ?_, ?_, ?_⟩
  · rw [hlen]
    have h180 : 2 * Real.pi / toRadians 2 = 180 := by
      rw [toRadians]
      field_simp
    rw [h180]
    simp
  · intro d hd
    rw [hunfold] at hd
    obtain ⟨a, -, rfl⟩ := List.mem_map.mp hd
    exact ⟨rfl, rfl⟩
  · rw [hunfold, hunfold]

/-- C6: boundary sampling with clock-angle limits steps from the minimum to
the maximum clock angle at the outer half-angle, contains a sample exactly
at the maximum clock angle at the outer half-angle, and then either steps
back down at the inner half-angle ending exactly at the minimum clock angle
(nonzero inner half-angle: a closed annular wedge), or closes with one extra
sample at the maximum clock angle with cone angle 0 (a pie-slice wedge). -/
theorem computeDirections_wedge
    (minimumClockAngle maximumClockAngle innerHalfAngle outerHalfAngle : ℝ)
    (hne : ¬(minimumClockAngle = 0 ∧ maximumClockAngle = 2 * Real.pi)) :
    computeDirections minimumClockAngle maximumClockAngle innerHalfAngle outerHalfAngle =
      ((List.range
            (Nat.ceil ((maximumClockAngle - minimumClockAngle) / toRadians 2))).map
          (fun k : ℕ =>
            (⟨minimumClockAngle + (k : ℝ) * toRadians 2, outerHalfAngle, 1⟩ : Spherical)) ++
        [⟨maximumClockAngle, outerHalfAngle, 1⟩]) ++
      (if innerHalfAngle ≠ 0 then
        (List.range
            (Nat.ceil ((maximumClockAngle - minimumClockAngle) / toRadians 2))).map
            (fun k : ℕ =>
              (⟨maximumClockAngle - (k : ℝ) * toRadians 2, innerHalfAngle, 1⟩ : Spherical)) ++
          [⟨minimumClockAngle, innerHalfAngle, 1⟩]
      else [⟨maximumClockAngle, 0, 1⟩]) := by
  rw [computeDirections, if_neg hne,
    upSamples_eq _ _ _ toRadians_two_pos, downSamples_eq _ _ _ toRadians_two_pos,
    List.map_map, List.map_map]
  rfl

/-- Witness for C6 at concrete clock-angle limits `[0, π]`, zero inner
half-angle and outer half-angle `π / 2`. -/
theorem computeDirections_wedge_witness :
    ¬((0 : ℝ) = 0 ∧ Real.pi = 2 * Real.pi) ∧
    computeDirections 0 Real.pi 0 (Real.pi / 2) =
      ((List.range (Nat.ceil ((Real.pi - 0) / toRadians 2))).map
          (fun k : ℕ => (⟨0 + (k : ℝ) * toRadians 2, Real.pi / 2, 1⟩ : Spherical)) ++
        [⟨Real.pi, Real.pi / 2, 1⟩]) ++
      (if (0 : ℝ) ≠ 0 then
        (List.range (Nat.ceil ((Real.pi - 0) / toRadians 2))).map
            (fun k : ℕ => (⟨Real.pi - (k : ℝ) * toRadians 2, 0, 1⟩ : Spherical)) ++
          [⟨(0 : ℝ), 0, 1⟩]
      else [⟨Real.pi, 0, 1⟩]) := by
  have hne : ¬((0 : ℝ) = 0 ∧ Real.pi = 2 * Real.pi) := by
    rintro ⟨-, h⟩
    have := Real.pi_pos
    linarith
  exact ⟨hne, computeDirections_wedge 0 Real.pi 0 (Real.pi / 2) hne⟩

/-- The `FAR` sentinel distance substituted for an infinite radius. -/
def FAR : ℝ := 5906376272000

/-- The radius actually used by the mesher: `isFinite(radius) ? radius : FAR`,
with `none` standing for `Number.POSITIVE_INFINITY`. -/
def effectiveRadius : Option ℝ → ℝ
  | some r => r
  | none => FAR

/-- Body of the `computePositions` loop of `CustomSensorVolume` at neighbor
indices `i`, `j`, `k`: the unit-sphere positions of the three consecutive
directions are taken, `theta` is the larger of the two adjacent angles, and
the middle direction is pushed out to `r / cos(theta * 0.5)`. -/
noncomputable def positionAt (directions : List Spherical) (r : ℝ) (i j k : ℕ) : Vec3 :=
  let n0 := fromSpherical (directions.getD i default)
  let n1 := fromSpherical (directions.getD j default)
  let n2 := fromSpherical (directions.getD k default)
  let theta := max (angleBetween n0 n1) (angleBetween n1 n2)
  let distance := r / Real.cos (theta * 0.5)
  smul3 distance n1

/-- Model of `computePositions`: the loop
`for (i = length-2, j = length-1, k = 0; k < length; i = j++, j = k++)`
writes, at iteration `k`, the vertex with index `j = (k + n - 1) % n` using
its cyclic predecessor `i = (k + n - 2) % n` and successor `k`.  The output
array is modelled as a function from vertex index to position. -/
noncomputable def computePositions (directions : List Spherical) (radius : Option ℝ) :
    ℕ → Vec3 :=
  (List.range directions.length).foldl
    (fun positions k =>
      Function.update positions ((k + directions.length - 1) % directions.length)
        (positionAt directions (effectiveRadius radius)
          ((k + directions.length - 2) % directions.length)
          ((k + directions.length - 1) % directions.length) k))
    (fun _ => Vec3.zero)

/-- The corrective angle of vertex `j`: the larger of the two angles between
direction `j` and its cyclic neighbors. -/
noncomputable def vertexTheta (directions : List Spherical) (j : ℕ) : ℝ :=
  max
    (angleBetween
      (fromSpherical
        (directions.getD ((j + directions.length - 1) % directions.length) default))
      (fromSpherical (directions.getD j default)))
    (angleBetween (fromSpherical (directions.getD j default))
      (fromSpherical (directions.getD ((j + 1) % directions.length) default)))

/-- A fold of pointwise updates leaves indices it never writes unchanged. -/
theorem foldl_update_of_forall_ne {α : Type} (w : ℕ → ℕ) (v : ℕ → α) :
    ∀ (l : List ℕ) (g : ℕ → α) (j : ℕ), (∀ k ∈ l, w k ≠ j) →
      (l.foldl (fun acc k => Function.update acc (w k) (v k)) g) j = g j := by
  intro l
  induction l with
  | nil => intro g j _; rfl
  | cons a t ih =>
    intro g j h
    rw [List.foldl_cons, ih _ j (fun k hk => h k (List.mem_cons_of_mem a hk))]
    exact Function.update_noteq (fun he => h a (List.mem_cons_self a t) he.symm) _ _

/-- A fold of pointwise updates, evaluated at an index written exactly once,
returns the written value. -/
theorem foldl_update_of_mem {α : Type} (w : ℕ → ℕ) (v : ℕ → α) :
    ∀ (l : List ℕ) (g : ℕ → α) (k : ℕ), k ∈ l →
      (∀ k' ∈ l, w k' = w k → k' = k) →
      (l.foldl (fun acc k' => Function.update acc (w k') (v k')) g) (w k) = v k := by
  intro l
  induction l with
  | nil => intro g k hk _; exact absurd hk (List.not_mem_nil k)
  | cons a t ih =>
    intro g k hk huniq
    rw [List.foldl_cons]
    by_cases hkt : k ∈ t
    · exact ih _ k hkt (fun k' hk' he => huniq k' (List.mem_cons_of_mem a hk') he)
    · have hka : k = a := by
        rcases List.mem_cons.mp hk with h | h
        · exact h
        · exact absurd h hkt
      subst hka
      rw [foldl_update_of_forall_ne w v t _ (w k)
        (fun k' hk' he => hkt (huniq k' (List.mem_cons_of_mem k hk') he ▸ hk'))]
      exact Function.update_same _ _ _

/-- Adding a fixed shift modulo `n` is injective below `n`. -/
theorem mod_shift_inj {n : ℕ} {a b c : ℕ} (ha : a < n) (hb : b < n)
    (h : (a + c) % n = (b + c) % n) : a = b := by
  have h' : a + c ≡ b + c [MOD n] := h
  have h2 := Nat.ModEq.add_right_cancel' c h'
  have h3 : a % n = b % n := h2
  rwa [Nat.mod_eq_of_lt ha, Nat.mod_eq_of_lt hb] at h3

/-- Closed form of the mesher loop: vertex `j` is produced from its two
cyclic neighbors. -/
theorem computePositions_get (ds : List Spherical) (radius : Option ℝ) (j : ℕ)
    (h3 : 3 ≤ ds.length) (hj : j < ds.length) :
    computePositions ds radius j =
      positionAt ds (effectiveRadius radius)
        ((j + ds.length - 1) % ds.length) j ((j + 1) % ds.length) := by
  have hn : 0 < ds.length := by omega
  have hk0 : (j + 1) % ds.length < ds.length := Nat.mod_lt _ hn
  have hw : ((j + 1) % ds.length + ds.length - 1) % ds.length = j := by
    have e1 : (j + 1) % ds.length + ds.length - 1 =
        (j + 1) % ds.length + (ds.length - 1) := by omega
    rw [e1, Nat.mod_add_mod]
    have e2 : j + 1 + (ds.length - 1) = j + ds.length := by omega
    rw [e2, Nat.add_mod_right, Nat.mod_eq_of_lt hj]
  have hi : ((j + 1) % ds.length + ds.length - 2) % ds.length =
      (j + ds.length - 1) % ds.length := by
    have e1 : (j + 1) % ds.length + ds.length - 2 =
        (j + 1) % ds.length + (ds.length - 2) := by omega
    rw [e1, Nat.mod_add_mod]
    have e2 : j + 1 + (ds.length - 2) = j + (ds.length - 1) := by omega
    have e3 : j + ds.length - 1 = j + (ds.length - 1) := by omega
    rw [e2, e3]
  have hfold :
      computePositions ds radius (((j + 1) % ds.length + ds.length - 1) % ds.length) =
        positionAt ds (effectiveRadius radius)
          (((j + 1) % ds.length + ds.length - 2) % ds.length)
          (((j + 1) % ds.length + ds.length - 1) % ds.length)
          ((j + 1) % ds.length) := by
    apply foldl_update_of_mem
      (fun k => (k + ds.length - 1) % ds.length)
      (fun k => positionAt ds (effectiveRadius radius)
        ((k + ds.length - 2) % ds.length) ((k + ds.length - 1) % ds.length) k)
      (List.range ds.length) _ ((j + 1) % ds.length)
      (List.mem_range.mpr hk0)
    intro k' hk' he
    have hk'lt := List.mem_range.mp hk'
    have e1 : k' + ds.length - 1 = k' + (ds.length - 1) := by omega
    have e2 : (j + 1) % ds.length + ds.length - 1 =
        (j + 1) % ds.length + (ds.length - 1) := by omega
    rw [e1, e2] at he
    exact mod_shift_inj hk'lt hk0 he
  rw [hw, hi] at hfold
  exact hfold

/-- The magnitude of a vector is nonnegative. -/
theorem norm3_nonneg (v : Vec3) : 0 ≤ norm3 v := Real.sqrt_nonneg _

/-- `atan2` applied to a nonnegative first argument is nonnegative. -/
theorem atan2_nonneg {y x : ℝ} (hy : 0 ≤ y) : 0 ≤ atan2 y x := by
  rw [atan2]
  rcases lt_trichotomy x 0 with hx | hx | hx
  · rw [if_neg (by linarith), if_pos hx, if_pos hy]
    have := Real.neg_pi_div_two_lt_arctan (y / x)
    have := Real.pi_pos
    linarith
  · subst hx
    rw [if_neg (lt_irrefl (0 : ℝ)), if_neg (lt_irrefl (0 : ℝ))]
    rcases eq_or_lt_of_le hy with hy0 | hy0
    · rw [if_neg (by linarith), if_neg (by linarith)]
    · rw [if_pos hy0]
      have := Real.pi_pos
      linarith
  · rw [if_pos hx]
    have hmono := Real.arctan_strictMono.monotone (div_nonneg hy (le_of_lt hx))
    rwa [Real.arctan_zero] at hmono

/-- `atan2` applied to a nonnegative first argument is at most `π`. -/
theorem atan2_le_pi {y x : ℝ} (hy : 0 ≤ y) : atan2 y x ≤ Real.pi := by
  rw [atan2]
  have hpi := Real.pi_pos
  rcases lt_trichotomy x 0 with hx | hx | hx
  · rw [if_neg (by linarith), if_pos hx, if_pos hy]
    have hdiv : y / x ≤ 0 := div_nonpos_iff.mpr (Or.inl ⟨hy, le_of_lt hx⟩)
    have hmono := Real.arctan_strictMono.monotone hdiv
    rw [Real.arctan_zero] at hmono
    linarith
  · subst hx
    rw [if_neg (lt_irrefl (0 : ℝ)), if_neg (lt_irrefl (0 : ℝ))]
    rcases eq_or_lt_of_le hy with hy0 | hy0
    · rw [if_neg (by linarith), if_neg (by linarith)]
      linarith
    · rw [if_pos hy0]
      linarith
  · rw [if_pos hx]
    have := Real.arctan_lt_pi_div_two (y / x)
    linarith

/-- `angleBetween` is always nonnegative. -/
theorem angleBetween_nonneg (u v : Vec3) : 0 ≤ angleBetween u v :=
  atan2_nonneg (norm3_nonneg _)

/-- The corrective angle of a vertex is nonnegative. -/
theorem vertexTheta_nonneg (ds : List Spherical) (j : ℕ) : 0 ≤ vertexTheta ds j :=
  le_max_of_le_left (angleBetween_nonneg _ _)

/-- A magnitude-1 spherical direction maps to a unit vector. -/
theorem norm3_fromSpherical {s : Spherical} (hm : s.magnitude = 1) :
    norm3 (fromSpherical s) = 1 := by
  simp only [norm3, fromSpherical, hm, one_mul]
  rw [show (Real.sin s.cone * Real.cos s.clock) ^ 2 +
        (Real.sin s.cone * Real.sin s.clock) ^ 2 + Real.cos s.cone ^ 2 = 1 from by
      linear_combination (Real.sin s.cone) ^ 2 * Real.sin_sq_add_cos_sq s.clock +
        Real.sin_sq_add_cos_sq s.cone]
  exact Real.sqrt_one

/-- Magnitude of a scalar multiple. -/
theorem norm3_smul3 (c : ℝ) (v : Vec3) : norm3 (smul3 c v) = |c| * norm3 v := by
  simp only [norm3, smul3]
  rw [show (c * v.x) ^ 2 + (c * v.y) ^ 2 + (c * v.z) ^ 2 =
        c ^ 2 * (v.x ^ 2 + v.y ^ 2 + v.z ^ 2) from by ring]
  rw [Real.sqrt_mul (sq_nonneg c), Real.sqrt_sq_eq_abs]

/-- C1: for a boundary of at least 3 unit-magnitude directions and a finite
radius `r > 0`, vertex `j` of the mesh is placed along the unit vector of
`directions[j]` at distance exactly `r / cos(theta * 0.5)`, where `theta` is
the larger of the angles to the two cyclic neighbors; consequently the
vertex lies at distance at least `r` from the local origin.  The hypothesis
`vertexTheta ds j < π` excludes adjacent antipodal samples, where the
division of the source produces an infinite (JavaScript `Infinity`) vertex. -/
theorem computePositions_extended (ds : List Spherical) (r : ℝ) (j : ℕ)
    (h3 : 3 ≤ ds.length) (hj : j < ds.length)
    (hm : ∀ d ∈ ds, d.magnitude = 1) (hr : 0 < r)
    (hθ : vertexTheta ds j < Real.pi) :
    computePositions ds (some r) j =
      smul3 (r / Real.cos (vertexTheta ds j * 0.5))
        (fromSpherical (ds.getD j default)) ∧
    r ≤ norm3 (computePositions ds (some r) j) := by
  have h1 := computePositions_get ds (some r) j h3 hj
  have hclosed : positionAt ds (effectiveRadius (some r))
      ((j + ds.length - 1) % ds.length) j ((j + 1) % ds.length) =
        smul3 (r / Real.cos (vertexTheta ds j * 0.5))
          (fromSpherical (ds.getD j default)) := rfl
  rw [h1, hclosed]
  refine ⟨rfl, ?_⟩
  have hθ0 := vertexTheta_nonneg ds j
  have hpi := Real.pi_pos
  have hcos : 0 < Real.cos (vertexTheta ds j * 0.5) :=
    Real.cos_pos_of_mem_Ioo ⟨by linarith, by linarith⟩
  have hcos1 : Real.cos (vertexTheta ds j * 0.5) ≤ 1 := Real.cos_le_one _
  have hmem : ds.getD j default ∈ ds := by
    rw [List.getD_eq_getElem?_getD]
    rw [List.getElem?_eq_getElem hj]
    exact List.getElem_mem hj
  rw [norm3_smul3, norm3_fromSpherical (hm _ hmem), mul_one,
    abs_of_pos (div_pos hr hcos), le_div_iff₀ hcos]
  exact mul_le_of_le_one_right (le_of_lt hr) hcos1

/-- The unit-sphere position of the concrete direction with clock 0, cone 0
and magnitude 1 is the north pole. -/
theorem fromSpherical_npole : fromSpherical ⟨0, 0, 1⟩ = (⟨0, 0, 1⟩ : Vec3) := by
  rw [fromSpherical]
  simp

/-- The magnitude of the north pole vector is 1. -/
theorem norm3_npole : norm3 (⟨0, 0, 1⟩ : Vec3) = 1 := by
  rw [norm3, show (0 : ℝ) ^ 2 + 0 ^ 2 + 1 ^ 2 = 1 from by norm_num]
  exact Real.sqrt_one

/-- The angle between the north pole vector and itself is 0. -/
theorem angleBetween_npole : angleBetween (⟨0, 0, 1⟩ : Vec3) ⟨0, 0, 1⟩ = 0 := by
  have hnormz : normalize3 (⟨0, 0, 1⟩ : Vec3) = ⟨0, 0, 1⟩ := by
    rw [normalize3, norm3_npole, smul3]
    simp
  rw [angleBetween, hnormz]
  rw [show cross3 (⟨0, 0, 1⟩ : Vec3) ⟨0, 0, 1⟩ = ⟨0, 0, 0⟩ from by rw [cross3]; simp]
  rw [show norm3 (⟨0, 0, 0⟩ : Vec3) = 0 from by
    rw [norm3, show (0 : ℝ) ^ 2 + 0 ^ 2 + 0 ^ 2 = 0 from by norm_num]
    exact Real.sqrt_zero]
  rw [show dot3 (⟨0, 0, 1⟩ : Vec3) ⟨0, 0, 1⟩ = 1 from by rw [dot3]; norm_num]
  rw [atan2, if_pos one_pos]
  norm_num [Real.arctan_zero]

/-- Witness for C1: three coincident north-pole directions and radius 2. -/
theorem computePositions_extended_witness :
    3 ≤ ([⟨0, 0, 1⟩, ⟨0, 0, 1⟩, ⟨0, 0, 1⟩] : List Spherical).length ∧
    (0 : ℕ) < ([⟨0, 0, 1⟩, ⟨0, 0, 1⟩, ⟨0, 0, 1⟩] : List Spherical).length ∧
    (∀ d ∈ ([⟨0, 0, 1⟩, ⟨0, 0, 1⟩, ⟨0, 0, 1⟩] : List Spherical), d.magnitude = 1) ∧
    (0 : ℝ) < 2 ∧
    vertexTheta [⟨0, 0, 1⟩, ⟨0, 0, 1⟩, ⟨0, 0, 1⟩] 0 < Real.pi ∧
    (computePositions [⟨0, 0, 1⟩, ⟨0, 0, 1⟩, ⟨0, 0, 1⟩] (some 2) 0 =
        smul3 (2 / Real.cos (vertexTheta [⟨0, 0, 1⟩, ⟨0, 0, 1⟩, ⟨0, 0, 1⟩] 0 * 0.5))
          (fromSpherical
            (([⟨0, 0, 1⟩, ⟨0, 0, 1⟩, ⟨0, 0, 1⟩] : List Spherical).getD 0 default)) ∧
      2 ≤ norm3 (computePositions [⟨0, 0, 1⟩, ⟨0, 0, 1⟩, ⟨0, 0, 1⟩] (some 2) 0)) := by
  have hθ : vertexTheta [⟨0, 0, 1⟩, ⟨0, 0, 1⟩, ⟨0, 0, 1⟩] 0 = 0 := by
    rw [vertexTheta]
    norm_num [List.getD]
    rw [fromSpherical_npole, angleBetween_npole]
  have hm : ∀ d ∈ ([⟨0, 0, 1⟩, ⟨0, 0, 1⟩, ⟨0, 0, 1⟩] : List Spherical),
      d.magnitude = 1 := by
    intro d hd
    simp only [List.mem_cons, List.not_mem_nil, or_false] at hd
    rcases hd with rfl | rfl | rfl <;> rfl
  have hθpi : vertexTheta [⟨0, 0, 1⟩, ⟨0, 0, 1⟩, ⟨0, 0, 1⟩] 0 < Real.pi := by
    rw [hθ]
    exact Real.pi_pos
  exact ⟨by norm_num, by norm_num, hm, by norm_num, hθpi,
    computePositions_extended [⟨0, 0, 1⟩, ⟨0, 0, 1⟩, ⟨0, 0, 1⟩] 2 0
      (by norm_num) (by norm_num) hm (by norm_num) hθpi⟩

/-- Scene modes of the render pipeline. -/
inductive SceneMode
  | scene2D
  | scene3D
  | columbusView
  | morphing
deriving DecidableEq

/-- A material reference: identity (for reference-equality change detection)
and its translucency. -/
structure Material where
  id : ℕ
  translucent : Bool
deriving DecidableEq

/-- Per-frame inputs consumed by `CustomSensorVolume.prototype.update`. -/
structure FrameState where
  mode : SceneMode
  passRender : Bool
  passPick : Bool

/-- The `DeveloperError`s that `update` can raise. -/
inductive DevErr
  | negativeRadius
  | materialUndefined
deriving DecidableEq

/-- The draw commands `update` can append to the frame's command list. -/
inductive Command
  | backFaceColor
  | frontFaceColor
  | pick
deriving DecidableEq

/-- Vertex data of a sensor volume: flat-shaded `(position, normal)` pairs. -/
def Mesh : Type := List (Vec3 × Vec3)

/-- Model of `createVertexArray`: for each boundary edge `(i, j)` with
`i = (j + n - 1) % n`, one triangle fan segment `origin, p1, p0` sharing the
face normal `normalize(cross(p1, p0))`. -/
noncomputable def createVertexArrayData (directions : List Spherical)
    (radius : Option ℝ) : Mesh :=
  ((List.range directions.length).map (fun j =>
    let p0 := computePositions directions radius
      ((j + directions.length - 1) % directions.length)
    let p1 := computePositions directions radius j
    let nrm := normalize3 (cross3 p1 p0)
    [(Vec3.zero, nrm), (p1, nrm), (p0, nrm)])).flatten

/-- Mutable state of a `CustomSensorVolume` primitive (the fields consulted
or written by the constructor, the `directions` setter and `update`; the
`show` flag is called `showFlag` because `show` is reserved in Lean).
`va` is the `_va` field targeted by the destroy statement of `update`, while
`cmdVertexArray` is the vertex array shared by the three draw commands. -/
structure SensorState where
  showFlag : Bool
  showThroughEllipsoid : Bool
  showThroughEllipsoidPrev : Bool
  mode : SceneMode
  radius : Option ℝ
  lateralSurfaceMaterial : Option Material
  lateralSurfaceMaterialPrev : Option Material
  translucentPrev : Option Bool
  hasRenderState : Bool
  hasShaderProgram : Bool
  directions : List Spherical
  directionsDirty : Bool
  va : Option Mesh
  cmdVertexArray : Option Mesh
  modelMatrix : ℕ
  modelMatrixPrev : ℕ

/-- Effects of one `update` call: draw commands appended to the frame's
command list, whether a vertex array was (re)built, and the meshes on which
`destroy()` was invoked. -/
structure UpdateEffects where
  commands : List Command
  rebuiltGeometry : Bool
  destroyedMeshes : List Mesh

/-- Plain property assignment `sensor.radius = r` (no setter validation
exists in the source). -/
def setRadius (s : SensorState) (r : Option ℝ) : SensorState := { s with radius := r }

/-- The `directions` setter of `CustomSensorVolume`: stores the value and
unconditionally marks the geometry dirty. -/
def setDirections (s : SensorState) (v : List Spherical) : SensorState :=
  { s with directions := v, directionsDirty := true }

/-- The `this.radius < 0.0` test (`Infinity < 0` is false in JavaScript). -/
def radiusNegative : Option ℝ → Prop
  | some r => r < 0
  | none => False

noncomputable instance (o : Option ℝ) : Decidable (radiusNegative o) :=
  match o with
  | some r => inferInstanceAs (Decidable (r < 0))
  | none => inferInstanceAs (Decidable False)

/-- The initial render-state creation block of `update`: runs when the
through-ellipsoid flag changed, no render state exists yet, or translucency
changed. -/
def renderStateStep (s : SensorState) (translucent : Bool) : SensorState :=
  if s.showThroughEllipsoidPrev ≠ s.showThroughEllipsoid ∨ s.hasRenderState = false ∨
      s.translucentPrev ≠ some translucent then
    { s with showThroughEllipsoidPrev := s.showThroughEllipsoid,
             translucentPrev := some translucent,
             hasRenderState := true }
  else s

/-- The geometry block of `update`: when the directions are dirty, clear the
flag, run `this._va = this._va && this._va.destroy()` (destroying the `_va`
mesh when present), and rebuild the commands' vertex array only when at
least 3 directions exist.  Returns the new state, whether a vertex array was
built, and the destroyed meshes. -/
noncomputable def geometryStep (s : SensorState) : SensorState × Bool × List Mesh :=
  if s.directionsDirty = true then
    let destroyed := match s.va with
      | some m => [m]
      | none => []
    let s' := { s with directionsDirty := false, va := none }
    if 3 ≤ s'.directions.length then
      let mesh := createVertexArrayData s'.directions s'.radius
      ({ s' with cmdVertexArray := some mesh }, true, destroyed)
    else (s', false, destroyed)
  else (s, false, [])

/-- The model-matrix block of `update`: value comparison against the cached
matrix. -/
def modelMatrixStep (s : SensorState) : SensorState :=
  if s.modelMatrix ≠ s.modelMatrixPrev then { s with modelMatrixPrev := s.modelMatrix }
  else s

/-- The tail of `update` once the primitive is shown in 3D with a valid
radius and a resolved material: render state, geometry, the no-vertex-array
early return, model matrix and material caching, and command emission. -/
noncomputable def updateShown (s1 : SensorState) (fs : FrameState) (mat : Material) :
    Except DevErr (SensorState × UpdateEffects) :=
  let s2 := renderStateStep s1 mat.translucent
  let g := geometryStep s2
  match (g.1).cmdVertexArray with
  | none => Except.ok (g.1, ⟨[], g.2.1, g.2.2⟩)
  | some _ =>
    let s4 := modelMatrixStep g.1
    let materialChanged := s4.lateralSurfaceMaterialPrev ≠ some mat
    let s5 := { s4 with lateralSurfaceMaterialPrev := some mat }
    let s6 := if fs.passRender = true ∧
        (materialChanged ∨ s5.hasShaderProgram = false) then
        { s5 with hasShaderProgram := true }
      else s5
    let renderCommands :=
      if fs.passRender = true then
        (if mat.translucent = true then
          [Command.backFaceColor, Command.frontFaceColor]
        else [Command.frontFaceColor])
      else []
    let pickCommands := if fs.passPick = true then [Command.pick] else []
    Except.ok (s6, ⟨renderCommands ++ pickCommands, g.2.1, g.2.2⟩)

/-- Model of `CustomSensorVolume.prototype.update`: records the scene mode,
returns immediately when hidden or not in 3D, then (in source order) checks
the radius and material preconditions, refreshes render state, rebuilds
geometry when dirty, returns without commands when no vertex array exists,
refreshes the cached model matrix and material, and appends the color and
pick commands for the requested passes. -/
noncomputable def update (s₀ : SensorState) (fs : FrameState) :
    Except DevErr (SensorState × UpdateEffects) :=
  let s1 := { s₀ with mode := fs.mode }
  if s1.showFlag = false ∨ s1.mode ≠ SceneMode.scene3D then
    Except.ok (s1, ⟨[], false, []⟩)
  else if radiusNegative s1.radius then
    Except.error DevErr.negativeRadius
  else
    match s1.lateralSurfaceMaterial with
    | none => Except.error DevErr.materialUndefined
    | some mat => updateShown s1 fs mat

/-- C10: when the primitive is hidden or the scene mode is not 3D, `update`
returns immediately after recording the scene mode: no draw command is
appended, no other state is mutated, and no failure is raised even when the
radius is negative or the material is undefined. -/
theorem update_hidden (s : SensorState) (fs : FrameState)
    (h : s.showFlag = false ∨ fs.mode ≠ SceneMode.scene3D) :
    update s fs = Except.ok ({ s with mode := fs.mode }, ⟨[], false, []⟩) := by
  simp only [update]
  rw [if_pos h]

/-- Witness for C10 at a concrete hidden state with a negative radius and no
material. -/
theorem update_hidden_witness :
    ((⟨false, false, false, SceneMode.scene3D, some (-5), none, none, none, false,
        false, [], false, none, none, 0, 0⟩ : SensorState).showFlag = false ∨
      (⟨SceneMode.scene2D, true, true⟩ : FrameState).mode ≠ SceneMode.scene3D) ∧
    update
        ⟨false, false, false, SceneMode.scene3D, some (-5), none, none, none, false,
          false, [], false, none, none, 0, 0⟩
        ⟨SceneMode.scene2D, true, true⟩ =
      Except.ok
        (⟨false, false, false, SceneMode.scene2D, some (-5), none, none, none, false,
          false, [], false, none, none, 0, 0⟩, ⟨[], false, []⟩) :=
  ⟨Or.inl rfl,
    update_hidden
      ⟨false, false, false, SceneMode.scene3D, some (-5), none, none, none, false,
        false, [], false, none, none, 0, 0⟩
      ⟨SceneMode.scene2D, true, true⟩ (Or.inl rfl)⟩

/-- Counterexample to C2: assigning `-1` as the radius succeeds at
configuration time (the value is stored, no failure is reported by any
setter), and the invalid-parameter failure is instead raised mid-frame by
the next `update` of a shown primitive in 3D mode. -/
theorem setRadius_negative_counterexample :
    (setRadius
        ⟨true, false, false, SceneMode.scene3D, some 1, some ⟨0, false⟩, none, none,
          false, false, [], false, none, none, 0, 0⟩ (some (-1))).radius = some (-1) ∧
    update
        (setRadius
          ⟨true, false, false, SceneMode.scene3D, some 1, some ⟨0, false⟩, none, none,
            false, false, [], false, none, none, 0, 0⟩ (some (-1)))
        ⟨SceneMode.scene3D, true, true⟩ = Except.error DevErr.negativeRadius := by
  refine ⟨rfl, ?_⟩
  simp only [update, setRadius]
  rw [if_neg (by simp)]
  rw [if_pos (show radiusNegative (some (-1 : ℝ)) from by
    rw [radiusNegative]; norm_num)]

/-- C2 (amended): the radius property has no validating setter — assignment
stores any value, including a negative one — and the negative-radius
invalid-parameter failure is raised by the per-frame `update` whenever the
primitive is shown in 3D mode with a negative radius. -/
theorem setRadius_stores_update_throws (s : SensorState) (r : ℝ) (fs : FrameState)
    (hneg : r < 0) (hshow : s.showFlag = true) (hmode : fs.mode = SceneMode.scene3D) :
    (setRadius s (some r)).radius = some r ∧
    update (setRadius s (some r)) fs = Except.error DevErr.negativeRadius := by
  refine ⟨rfl, ?_⟩
  simp only [update, setRadius]
  rw [if_neg (by rw [hshow, hmode]; simp)]
  rw [if_pos (show radiusNegative (some r) from hneg)]

/-- Witness for the amended C2 at a concrete state. -/
theorem setRadius_stores_update_throws_witness :
    (-1 : ℝ) < 0 ∧
    (⟨true, false, false, SceneMode.scene3D, some 1, some ⟨0, false⟩, none, none,
        false, false, [], false, none, none, 0, 0⟩ : SensorState).showFlag = true ∧
    (⟨SceneMode.scene3D, true, true⟩ : FrameState).mode = SceneMode.scene3D ∧
    ((setRadius
        ⟨true, false, false, SceneMode.scene3D, some 1, some ⟨0, false⟩, none, none,
          false, false, [], false, none, none, 0, 0⟩ (some (-1))).radius = some (-1) ∧
      update
          (setRadius
            ⟨true, false, false, SceneMode.scene3D, some 1, some ⟨0, false⟩, none, none,
              false, false, [], false, none, none, 0, 0⟩ (some (-1)))
          ⟨SceneMode.scene3D, true, true⟩ = Except.error DevErr.negativeRadius) :=
  ⟨by norm_num, rfl, rfl,
    setRadius_stores_update_throws
      ⟨true, false, false, SceneMode.scene3D, some 1, some ⟨0, false⟩, none, none,
        false, false, [], false, none, none, 0, 0⟩ (-1)
      ⟨SceneMode.scene3D, true, true⟩ (by norm_num) rfl rfl⟩

/-- The render-state block leaves the geometry-related fields untouched. -/
theorem renderStateStep_preserve (s : SensorState) (t : Bool) :
    (renderStateStep s t).directions = s.directions ∧
    (renderStateStep s t).directionsDirty = s.directionsDirty ∧
    (renderStateStep s t).va = s.va ∧
    (renderStateStep s t).radius = s.radius ∧
    (renderStateStep s t).cmdVertexArray = s.cmdVertexArray := by
  rw [renderStateStep]
  split
  · exact ⟨rfl, rfl, rfl, rfl, rfl⟩
  · exact ⟨rfl, rfl, rfl, rfl, rfl⟩

/-- Evaluation of the geometry block when the directions are dirty and at
least 3 directions exist: the vertex array is rebuilt. -/
theorem geometryStep_dirty (s : SensorState) (hd : s.directionsDirty = true)
    (hlen : 3 ≤ s.directions.length) :
    geometryStep s =
      ({ s with
          directionsDirty := false,
          va := none,
          cmdVertexArray := some (createVertexArrayData s.directions s.radius) },
        true,
        match s.va with
        | some m => [m]
        | none => []) := by
  rw [geometryStep, if_pos hd, if_pos (show 3 ≤ s.directions.length from hlen)]

/-- The shown tail of `update` rebuilds the vertex data whenever the
directions are dirty and at least 3 directions exist. -/
theorem updateShown_rebuilds (s1 : SensorState) (fs : FrameState) (mat : Material)
    (hd : s1.directionsDirty = true) (hlen : 3 ≤ s1.directions.length) :
    ∃ s' eff, updateShown s1 fs mat = Except.ok (s', eff) ∧
      eff.rebuiltGeometry = true := by
  simp only [updateShown]
  have hpres := renderStateStep_preserve s1 mat.translucent
  have hg := geometryStep_dirty (renderStateStep s1 mat.translucent)
    (by rw [hpres.2.1]; exact hd) (by rw [hpres.1]; exact hlen)
  rw [hg]
  exact ⟨_, _, rfl, rfl⟩

/-- Reduction of `update` to its shown tail under the guard conditions. -/
theorem update_eq_updateShown (s : SensorState) (fs : FrameState) (mat : Material)
    (hshow : s.showFlag = true) (hmode : fs.mode = SceneMode.scene3D)
    (hrad : ¬ radiusNegative s.radius)
    (hmat : s.lateralSurfaceMaterial = some mat) :
    update s fs = updateShown { s with mode := fs.mode } fs mat := by
  simp only [update]
  rw [if_neg (by rw [hshow, hmode]; simp)]
  rw [if_neg hrad]
  rw [hmat]

/-- Counterexample to C3: a primitive whose geometry is clean and whose
`directions` value is re-assigned unchanged still gets its geometry marked
dirty by the setter. -/
theorem setDirections_redirties_counterexample :
    (⟨true, false, false, SceneMode.scene3D, some 1, some ⟨0, false⟩, none, none,
        false, false, [⟨0, 0, 1⟩], false, none, none, 0, 0⟩ : SensorState).directionsDirty
        = false ∧
    (setDirections
        ⟨true, false, false, SceneMode.scene3D, some 1, some ⟨0, false⟩, none, none,
          false, false, [⟨0, 0, 1⟩], false, none, none, 0, 0⟩
        (⟨true, false, false, SceneMode.scene3D, some 1, some ⟨0, false⟩, none, none,
          false, false, [⟨0, 0, 1⟩], false, none, none, 0, 0⟩ :
            SensorState).directions).directionsDirty = true :=
  ⟨rfl, rfl⟩

/-- C3 (amended): the `directions` setter marks the geometry dirty on every
assignment, including re-assignment of the currently held value (as the
custom-pattern visualizer does on every tick), so the next `update` of a
shown primitive in 3D mode rebuilds the vertex data even though the
directions are unchanged. -/
theorem setDirections_always_rebuilds (s : SensorState) (fs : FrameState)
    (mat : Material)
    (hshow : s.showFlag = true) (hmode : fs.mode = SceneMode.scene3D)
    (hrad : ¬ radiusNegative s.radius)
    (hmat : s.lateralSurfaceMaterial = some mat)
    (hlen : 3 ≤ s.directions.length) :
    (setDirections s s.directions).directionsDirty = true ∧
    (∃ s' eff, update (setDirections s s.directions) fs = Except.ok (s', eff) ∧
      eff.rebuiltGeometry = true) := by
  refine ⟨rfl, ?_⟩
  rw [update_eq_updateShown (setDirections s s.directions) fs mat hshow hmode hrad hmat]
  exact updateShown_rebuilds _ fs mat rfl hlen

/-- Witness for the amended C3 at a concrete state with three directions. -/
theorem setDirections_always_rebuilds_witness :
    (⟨true, false, false, SceneMode.scene3D, some 1, some ⟨0, false⟩, none, none,
        false, false, [⟨0, 0, 1⟩, ⟨0, 0, 1⟩, ⟨0, 0, 1⟩], false, none, none, 0, 0⟩ :
          SensorState).showFlag = true ∧
    (⟨SceneMode.scene3D, true, false⟩ : FrameState).mode = SceneMode.scene3D ∧
    ¬ radiusNegative (⟨true, false, false, SceneMode.scene3D, some 1, some ⟨0, false⟩,
        none, none, false, false, [⟨0, 0, 1⟩, ⟨0, 0, 1⟩, ⟨0, 0, 1⟩], false, none, none,
        0, 0⟩ : SensorState).radius ∧
    (⟨true, false, false, SceneMode.scene3D, some 1, some ⟨0, false⟩, none, none,
        false, false, [⟨0, 0, 1⟩, ⟨0, 0, 1⟩, ⟨0, 0, 1⟩], false, none, none, 0, 0⟩ :
          SensorState).lateralSurfaceMaterial = some ⟨0, false⟩ ∧
    3 ≤ (⟨true, false, false, SceneMode.scene3D, some 1, some ⟨0, false⟩, none, none,
        false, false, [⟨0, 0, 1⟩, ⟨0, 0, 1⟩, ⟨0, 0, 1⟩], false, none, none, 0, 0⟩ :
          SensorState).directions.length ∧
    ((setDirections
        ⟨true, false, false, SceneMode.scene3D, some 1, some ⟨0, false⟩, none, none,
          false, false, [⟨0, 0, 1⟩, ⟨0, 0, 1⟩, ⟨0, 0, 1⟩], false, none, none, 0, 0⟩
        (⟨true, false, false, SceneMode.scene3D, some 1, some ⟨0, false⟩, none, none,
          false, false, [⟨0, 0, 1⟩, ⟨0, 0, 1⟩, ⟨0, 0, 1⟩], false, none, none, 0, 0⟩ :
            SensorState).directions).directionsDirty = true ∧
      (∃ s' eff,
        update
            (setDirections
              ⟨true, false, false, SceneMode.scene3D, some 1, some ⟨0, false⟩, none,
                none, false, false, [⟨0, 0, 1⟩, ⟨0, 0, 1⟩, ⟨0, 0, 1⟩], false, none,
                none, 0, 0⟩
              (⟨true, false, false, SceneMode.scene3D, some 1, some ⟨0, false⟩, none,
                none, false, false, [⟨0, 0, 1⟩, ⟨0, 0, 1⟩, ⟨0, 0, 1⟩], false, none,
                none, 0, 0⟩ : SensorState).directions)
            ⟨SceneMode.scene3D, true, false⟩ = Except.ok (s', eff) ∧
        eff.rebuiltGeometry = true)) := by
  refine ⟨rfl, rfl, ?_, rfl, by norm_num, ?_⟩
  · rw [radiusNegative]
    norm_num
  · exact setDirections_always_rebuilds _ ⟨SceneMode.scene3D, true, false⟩ ⟨0, false⟩
      rfl rfl (by rw [radiusNegative]; norm_num) rfl (by norm_num)

/-- A mesh left over from an earlier tick with at least 3 directions. -/
def staleMesh : Mesh := [(Vec3.zero, Vec3.zero)]

/-- A primitive whose directions were changed to a 2-entry list (dirty flag
set) while the draw commands still hold the previous mesh, exactly the state
after `sensor.directions = twoEntries` on a primitive that had rendered
before. -/
def shrunkState : SensorState :=
  ⟨true, false, false, SceneMode.scene3D, some 1, some ⟨0, false⟩, some ⟨0, false⟩,
    some false, true, true, [⟨0, 0, 1⟩, ⟨0, 0, 1⟩], true, none, some staleMesh, 0, 0⟩

/-- C4 (code bug): on the update tick after the directions shrank below 3
entries, the destroy statement of `update` targets the never-assigned `_va`
field, so no mesh is destroyed (`destroyedMeshes = []`), the commands'
vertex array still holds the stale mesh from the previous boundary, and the
primitive emits a draw command instead of rendering nothing. -/
theorem update_staleMesh_renders :
    shrunkState.directions.length < 3 ∧
    shrunkState.directionsDirty = true ∧
    (∃ s' : SensorState,
      update shrunkState ⟨SceneMode.scene3D, true, false⟩ =
        Except.ok (s', ⟨[Command.frontFaceColor], false, []⟩) ∧
      s'.cmdVertexArray = some staleMesh) := by
  refine ⟨by norm_num [shrunkState], rfl, ?_⟩
  have hrad : ¬ radiusNegative (some (1 : ℝ)) := by
    rw [radiusNegative]
    norm_num
  refine ⟨⟨true, false, false, SceneMode.scene3D, some 1, some ⟨0, false⟩,
    some ⟨0, false⟩, some false, true, true, [⟨0, 0, 1⟩, ⟨0, 0, 1⟩], false, none,
    some staleMesh, 0, 0⟩, ?_, rfl⟩
  simp only [update, updateShown, renderStateStep, geometryStep, modelMatrixStep,
    shrunkState]
  simp [hrad]

/-- An entity as seen by a visualizer: its identity and whether the
sensor-kind property, a position and an orientation are defined. -/
structure Entity where
  id : ℕ
  hasSensor : Bool
  hasPosition : Bool
  hasOrientation : Bool
deriving DecidableEq

/-- The completeness test `defined(_conicSensor) && defined(_position) &&
defined(_orientation)` of `_onCollectionChanged`. -/
def entityComplete (e : Entity) : Bool := e.hasSensor && e.hasPosition && e.hasOrientation

/-- State of a visualizer: the `_entitiesToVisualize` id set, the `_hash`
from entity id to primitive id, the scene's primitive registry, the list of
`destroy()` calls performed so far, and a counter supplying fresh primitive
identities. -/
structure VisState where
  entitiesToVisualize : List ℕ
  hash : List (ℕ × ℕ)
  primitives : List ℕ
  destroyed : List ℕ
  nextPrim : ℕ
deriving DecidableEq

/-- Lookup in the `_hash` object. -/
def lookupId : List (ℕ × ℕ) → ℕ → Option ℕ
  | [], _ => none
  | (k, v) :: t, e => if k = e then some v else lookupId t e

/-- `AssociativeArray.set`: insert the id if not yet present. -/
def setId (l : List ℕ) (e : ℕ) : List ℕ := if l.contains e then l else l ++ [e]

/-- Model of `removePrimitive(entity, hash, primitives)`: when a hash entry
exists, remove the primitive from the registry, destroy it unless already
destroyed (`isDestroyed` test), and delete the hash entry; otherwise do
nothing. -/
def removePrimitive (e : ℕ) (s : VisState) : VisState :=
  match lookupId s.hash e with
  | none => s
  | some p =>
    { s with
        primitives := s.primitives.erase p,
        destroyed := if s.destroyed.contains p then s.destroyed else s.destroyed ++ [p],
        hash := s.hash.filter (fun q => q.1 != e) }

/-- The added-loop body of `_onCollectionChanged`: track a complete entity. -/
def addTracked (acc : VisState) (e : Entity) : VisState :=
  if entityComplete e = true then
    { acc with entitiesToVisualize := setId acc.entitiesToVisualize e.id }
  else acc

/-- The removed-loop body: `removePrimitive` then drop from the tracked set. -/
def dropTracked (acc : VisState) (e : Entity) : VisState :=
  let acc' := removePrimitive e.id acc
  { acc' with
      entitiesToVisualize := acc'.entitiesToVisualize.filter (fun x => x != e.id) }

/-- The changed-loop body: track when complete, otherwise remove and drop. -/
def changeStep (acc : VisState) (e : Entity) : VisState :=
  if entityComplete e = true then
    { acc with entitiesToVisualize := setId acc.entitiesToVisualize e.id }
  else dropTracked acc e

/-- Model of `_onCollectionChanged(collection, added, removed, changed)`:
the source iterates each change set from the last index down to 0, so each
loop is a fold over the reversed list. -/
def onCollectionChanged (s : VisState) (added removed changed : List Entity) : VisState :=
  let s1 := added.reverse.foldl addTracked s
  let s2 := changed.reverse.foldl changeStep s1
  removed.reverse.foldl dropTracked s2

/-- The per-entity body of the visualizer's `update` tick, restricted to the
lifecycle state: a shown tracked entity gets a fresh primitive created,
registered and recorded in the hash when none exists yet. -/
def tickStep (showing : ℕ → Bool) (acc : VisState) (e : ℕ) : VisState :=
  if showing e = true then
    match lookupId acc.hash e with
    | some _ => acc
    | none =>
      { acc with
          hash := acc.hash ++ [(e, acc.nextPrim)],
          primitives := acc.primitives ++ [acc.nextPrim],
          nextPrim := acc.nextPrim + 1 }
  else acc

/-- The visualizer `update` tick over all tracked entities. -/
def visUpdateTick (s : VisState) (showing : ℕ → Bool) : VisState :=
  s.entitiesToVisualize.foldl (tickStep showing) s

/-- Appending a hash entry for a different key does not affect lookup. -/
theorem lookupId_append_single (l : List (ℕ × ℕ)) (a p e : ℕ) (h : a ≠ e) :
    lookupId (l ++ [(a, p)]) e = lookupId l e := by
  induction l with
  | nil => simp [lookupId, h]
  | cons q t ih =>
    obtain ⟨k, v⟩ := q
    rw [List.cons_append]
    rw [lookupId, lookupId]
    split
    · rfl
    · exact ih

/-- Filtering out a key makes its lookup fail. -/
theorem lookupId_filter_ne (l : List (ℕ × ℕ)) (e : ℕ) :
    lookupId (l.filter (fun q => q.1 != e)) e = none := by
  induction l with
  | nil => rfl
  | cons q t ih =>
    obtain ⟨k, v⟩ := q
    by_cases hk : k = e
    · simp [List.filter_cons, hk, ih]
    · simp [List.filter_cons, hk, lookupId, ih]

/-- The tracking step never touches the hash, registry, destroy list or the
fresh-primitive counter. -/
theorem addTracked_fields (acc : VisState) (e : Entity) :
    (addTracked acc e).hash = acc.hash ∧
    (addTracked acc e).primitives = acc.primitives ∧
    (addTracked acc e).nextPrim = acc.nextPrim ∧
    (addTracked acc e).destroyed = acc.destroyed := by
  rw [addTracked]
  split
  · exact ⟨rfl, rfl, rfl, rfl⟩
  · exact ⟨rfl, rfl, rfl, rfl⟩

/-- `removePrimitive` with no hash entry is the identity. -/
theorem removePrimitive_none (e : ℕ) (s : VisState) (h : lookupId s.hash e = none) :
    removePrimitive e s = s := by
  rw [removePrimitive, h]

/-- A tick over ids different from `e` never adds a hash entry for `e`. -/
theorem foldl_tickStep_lookup (showing : ℕ → Bool) :
    ∀ (l : List ℕ) (s : VisState) (e : ℕ), (∀ x ∈ l, x ≠ e) →
      lookupId ((l.foldl (tickStep showing) s).hash) e = lookupId s.hash e := by
  intro l
  induction l with
  | nil => intro s e _; rfl
  | cons a t ih =>
    intro s e h
    rw [List.foldl_cons, ih _ e (fun x hx => h x (List.mem_cons_of_mem a hx))]
    rw [tickStep]
    split
    · split
      · rfl
      · exact lookupId_append_single _ _ _ _ (h a (List.mem_cons_self a t))
    · rfl

/-- C9: (a) an entity delivered in the added set and then in the removed set
before any tick keeps the registry, hash and primitive counter unchanged and
is dropped from the tracked set, and a later tick still creates no primitive
for it; (b) for an entity in the removed set whose tracked entry holds
primitive `p` not yet destroyed, the primitive is removed from the registry,
destroyed exactly once, and the hash entry is dropped. -/
theorem visualizer_lifecycle :
    (∀ (s : VisState) (e : Entity) (showing : ℕ → Bool),
      lookupId s.hash e.id = none →
      ((onCollectionChanged (onCollectionChanged s [e] [] []) [] [e] []).primitives
          = s.primitives ∧
        (onCollectionChanged (onCollectionChanged s [e] [] []) [] [e] []).nextPrim
          = s.nextPrim ∧
        lookupId
          (onCollectionChanged (onCollectionChanged s [e] [] []) [] [e] []).hash
          e.id = none ∧
        lookupId
          (visUpdateTick (onCollectionChanged (onCollectionChanged s [e] [] []) [] [e] [])
            showing).hash e.id = none)) ∧
    (∀ (s : VisState) (e : Entity) (p : ℕ),
      lookupId s.hash e.id = some p → s.destroyed.contains p = false →
      ((onCollectionChanged s [] [e] []).primitives = s.primitives.erase p ∧
        (onCollectionChanged s [] [e] []).destroyed = s.destroyed ++ [p] ∧
        (onCollectionChanged s [] [e] []).destroyed.count p = 1 ∧
        lookupId (onCollectionChanged s [] [e] []).hash e.id = none)) := by
  constructor
  · intro s e showing h
    have hadd := addTracked_fields s e
    have h1 : onCollectionChanged s [e] [] [] = addTracked s e := rfl
    have h2 : onCollectionChanged (addTracked s e) [] [e] [] =
        dropTracked (addTracked s e) e := rfl
    have hrem : removePrimitive e.id (addTracked s e) = addTracked s e :=
      removePrimitive_none _ _ (by rw [hadd.1]; exact h)
    have h3 : dropTracked (addTracked s e) e =
        { addTracked s e with
            entitiesToVisualize :=
              (addTracked s e).entitiesToVisualize.filter (fun x => x != e.id) } := by
      rw [dropTracked]
      rw [hrem]
    rw [h1, h2, h3]
    refine ⟨hadd.2.1, hadd.2.2.1, by rw [hadd.1]; exact h, ?_⟩
    rw [visUpdateTick]
    rw [foldl_tickStep_lookup showing _ _ e.id ?_]
    · rw [hadd.1]; exact h
    · intro x hx
      have := List.mem_filter.mp hx
      simpa using this.2
  · intro s e p hp hc
    have h1 : onCollectionChanged s [] [e] [] = dropTracked s e := rfl
    have h2a : removePrimitive e.id s =
        { s with
            primitives := s.primitives.erase p,
            destroyed := if s.destroyed.contains p = true then s.destroyed
              else s.destroyed ++ [p],
            hash := s.hash.filter (fun q => q.1 != e.id) } := by
      rw [removePrimitive, hp]
    have h2 : removePrimitive e.id s =
        { s with
            primitives := s.primitives.erase p,
            destroyed := s.destroyed ++ [p],
            hash := s.hash.filter (fun q => q.1 != e.id) } := by
      rw [h2a, hc]
      simp
    rw [h1, dropTracked, h2]
    refine ⟨rfl, rfl, ?_, lookupId_filter_ne _ _⟩
    rw [List.count_append]
    have h0 : s.destroyed.count p = 0 := by
      rw [List.count_eq_zero]
      simp at hc
      exact hc
    rw [h0]
    simp

/-- Witness for C9: part (a) at a fresh visualizer with entity 7 added then
removed, part (b) at a visualizer tracking entity 3 with live primitive 0. -/
theorem visualizer_lifecycle_witness :
    (lookupId (⟨[], [], [], [], 0⟩ : VisState).hash 7 = none ∧
      ((onCollectionChanged
          (onCollectionChanged ⟨[], [], [], [], 0⟩ [⟨7, true, true, true⟩] [] [])
          [] [⟨7, true, true, true⟩] []).primitives = [] ∧
        (onCollectionChanged
          (onCollectionChanged ⟨[], [], [], [], 0⟩ [⟨7, true, true, true⟩] [] [])
          [] [⟨7, true, true, true⟩] []).nextPrim = 0 ∧
        lookupId
          (onCollectionChanged
            (onCollectionChanged ⟨[], [], [], [], 0⟩ [⟨7, true, true, true⟩] [] [])
            [] [⟨7, true, true, true⟩] []).hash 7 = none ∧
        lookupId
          (visUpdateTick
            (onCollectionChanged
              (onCollectionChanged ⟨[], [], [], [], 0⟩ [⟨7, true, true, true⟩] [] [])
              [] [⟨7, true, true, true⟩] []) (fun _ => true)).hash 7 = none)) ∧
    (lookupId (⟨[3], [(3, 0)], [0], [], 1⟩ : VisState).hash 3 = some 0 ∧
      (⟨[3], [(3, 0)], [0], [], 1⟩ : VisState).destroyed.contains 0 = false ∧
      ((onCollectionChanged ⟨[3], [(3, 0)], [0], [], 1⟩ [] [⟨3, true, true, true⟩] []).primitives
          = ([0] : List ℕ).erase 0 ∧
        (onCollectionChanged ⟨[3], [(3, 0)], [0], [], 1⟩ [] [⟨3, true, true, true⟩] []).destroyed
          = [] ++ [0] ∧
        (onCollectionChanged ⟨[3], [(3, 0)], [0], [], 1⟩ [] [⟨3, true, true, true⟩] []).destroyed.count 0
          = 1 ∧
        lookupId
          (onCollectionChanged ⟨[3], [(3, 0)], [0], [], 1⟩ [] [⟨3, true, true, true⟩] []).hash 3
          = none)) :=
  ⟨⟨rfl,
    visualizer_lifecycle.1 ⟨[], [], [], [], 0⟩ ⟨7, true, true, true⟩ (fun _ => true) rfl⟩,
   ⟨by decide, rfl,
    visualizer_lifecycle.2 ⟨[3], [(3, 0)], [0], [], 1⟩ ⟨3, true, true, true⟩ 0
      (by decide) rfl⟩⟩

end CesiumSensors
